import Mathlib

/-!
Shallow embedding of the f95zone-scraper pipeline:
googleSheetsService (record merge, dedup lookup, name normalization,
game numbering), aiService (AI extraction with deterministic fallback),
scraperService (download-size aggregation, scrape retry policy) and the
server's progress-event stream.  JS strings are `String`/`List Char`;
JS `undefined`/missing fields are `Option`; machine numbers are `Nat`
(all sizes and counters in the code are non-negative and far below 2^53,
where JS doubles are exact); thrown errors are `Except`/`Option`.
The regex helpers below implement the exact backtracking semantics of the
concrete JS regexes used by the code (greedy = longest first, lazy =
shortest first, leftmost match, alternation in source order, `\b` by the
word-character status of the neighbouring characters), restricted to the
ASCII ranges of the character classes involved.
-/

namespace F95

/-- Word characters of JS regex `\w`: ASCII letters, digits, underscore. -/
def isWordChar (c : Char) : Bool :=
  ('a' ≤ c && c ≤ 'z') || ('A' ≤ c && c ≤ 'Z') || ('0' ≤ c && c ≤ '9') || c = '_'

/-- Whitespace of JS regex `\s` (the ASCII part). -/
def isWS (c : Char) : Bool :=
  c = ' ' || c = '\t' || c = '\n' || c = '\r' || c = '\x0b' || c = '\x0c'

def isDigitChar (c : Char) : Bool := '0' ≤ c && c ≤ '9'

/-- The character class `[\d.]`. -/
def isDigitDot (c : Char) : Bool := isDigitChar c || c = '.'

def wordOpt : Option Char → Bool
  | some c => isWordChar c
  | none => false

/-- JS `\b`: the two sides differ in word-character status (outside the
string counts as non-word). -/
def boundary (prev next : Option Char) : Bool := wordOpt prev != wordOpt next

/-- Length of the maximal leading run of characters satisfying `p`. -/
def runLen (p : Char → Bool) : List Char → Nat
  | [] => 0
  | c :: cs => if p c then runLen p cs + 1 else 0

/-- Try `f n`, then `f (n-1)`, ..., down to `f 0`; first `some` wins.
Used for greedy backtracking (longest candidate first). -/
def firstSome (f : Nat → Option Nat) : Nat → Option Nat
  | 0 => f 0
  | n + 1 => (f (n + 1)).orElse fun _ => firstSome f n

/-- The alternation `(v|ver|version|ep|episode|chapter|ch|part|pt|release|r)`
of `normalizeGameName`, in JS source order (leftmost alternative first). -/
def verTokens : List (List Char) :=
  ["v", "ver", "version", "ep", "episode", "chapter", "ch",
   "part", "pt", "release", "r"].map String.toList

/-- Match `\s*[\d.]+\w*\b` at the start of `afterTok` (the part of the
version regex after the alternation), with JS greedy backtracking:
`[\d.]+` longest first, then `\w*` longest first, then `\b` must hold.
Returns the matched length. -/
def verDigitsLen (afterTok : List Char) : Option Nat :=
  let w2 := runLen isWS afterTok
  let rest := afterTok.drop w2
  let d := runLen isDigitDot rest
  if d = 0 then none
  else
    firstSome
      (fun k =>
        if k = 0 then none
        else
          let tail := rest.drop k
          let lastK := rest.get? (k - 1)
          let mw := runLen isWordChar tail
          firstSome
            (fun j =>
              let endPrev := if j = 0 then lastK else tail.get? (j - 1)
              let endNext := (tail.drop j).head?
              if boundary endPrev endNext then some (w2 + k + j) else none)
            mw)
      d

/-- Try the alternation's tokens in order at the start of `rest`; on a
literal match continue with `verDigitsLen`, else backtrack to the next
alternative — exactly the JS engine's order. -/
def firstVerToken (rest : List Char) : List (List Char) → Option Nat
  | [] => none
  | t :: ts =>
    if t.isPrefixOf rest then
      match verDigitsLen (rest.drop t.length) with
      | some n => some (t.length + n)
      | none => firstVerToken rest ts
    else firstVerToken rest ts

/-- Match the whole version pattern
`\s*\b(v|ver|version|ep|episode|chapter|ch|part|pt|release|r)\s*[\d.]+\w*\b`
at one position (`prev` = the character just before it in the original
string).  The leading `\s*` is effectively deterministic: every
alternative starts with a word character, so only the maximal whitespace
run can be followed by a token. -/
def verMatchLen (prev : Option Char) (cs : List Char) : Option Nat :=
  let w := runLen isWS cs
  let rest := cs.drop w
  let prevW := if w = 0 then prev else cs.get? (w - 1)
  if boundary prevW rest.head? then
    (firstVerToken rest verTokens).map (w + ·)
  else none

/-- Global replace of the version pattern by the empty string: scan left to
right over the original string (JS `replace` with `/g` matches on the
original; `\b` context is the original neighbours). -/
def stripVerAux : Option Char → List Char → Nat → List Char
  | _, cs, 0 => cs
  | prev, cs, fuel + 1 =>
    match cs with
    | [] => []
    | c :: rest =>
      match verMatchLen prev cs with
      | some n =>
        if n = 0 then c :: stripVerAux (some c) rest fuel
        else stripVerAux (cs.get? (n - 1)) (cs.drop n) fuel
      | none => c :: stripVerAux (some c) rest fuel

def stripVer (cs : List Char) : List Char := stripVerAux none cs cs.length

/-- JS `.` (no `s` flag) does not match line terminators. -/
def isLineTerm (c : Char) : Bool := c = '\n' || c = '\r'

/-- Lazy `.*?[\]\)]`: distance to the first `]` or `)`, all characters
before it matchable by `.`. -/
def lazyToCloser : List Char → Option Nat
  | [] => none
  | c :: rest =>
    if c = ']' || c = ')' then some 0
    else if isLineTerm c then none
    else (lazyToCloser rest).map (· + 1)

/-- Match `\s*[\[\(].*?[\]\)]\s*` at one position. -/
def bracketMatchLen (cs : List Char) : Option Nat :=
  let w := runLen isWS cs
  match cs.drop w with
  | [] => none
  | c :: rest2 =>
    if c = '[' || c = '(' then
      match lazyToCloser rest2 with
      | some m =>
        some (w + 1 + m + 1 + runLen isWS (rest2.drop (m + 1)))
      | none => none
    else none

/-- Global replace of bracketed segments by a single space. -/
def stripBracketsAux : List Char → Nat → List Char
  | cs, 0 => cs
  | cs, fuel + 1 =>
    match cs with
    | [] => []
    | c :: rest =>
      match bracketMatchLen cs with
      | some n => ' ' :: stripBracketsAux (cs.drop n) fuel
      | none => c :: stripBracketsAux rest fuel

def stripBrackets (cs : List Char) : List Char := stripBracketsAux cs cs.length

/-- Replace a leading `(the\s+|a\s+|an\s+)` (first match only, alternatives
in JS source order; the input is already lowercased). -/
def stripArticle (cs : List Char) : List Char :=
  let tryTok : List Char → Option Nat := fun t =>
    if t.isPrefixOf cs then
      let w := runLen isWS (cs.drop t.length)
      if w = 0 then none else some (t.length + w)
    else none
  match tryTok "the".toList with
  | some n => cs.drop n
  | none =>
    match tryTok "a".toList with
    | some n => cs.drop n
    | none =>
      match tryTok "an".toList with
      | some n => cs.drop n
      | none => cs

/-- Global replace of `\s+` by a single space. -/
def collapseWSAux : Bool → List Char → List Char
  | _, [] => []
  | inWS, c :: cs =>
    if isWS c then
      if inWS then collapseWSAux true cs else ' ' :: collapseWSAux true cs
    else c :: collapseWSAux false cs

def collapseWS (cs : List Char) : List Char := collapseWSAux false cs

def trimLeftWS (cs : List Char) : List Char := cs.drop (runLen isWS cs)

/-- JS `String.prototype.trim`. -/
def trimWS (cs : List Char) : List Char :=
  (trimLeftWS (trimLeftWS cs.reverse).reverse)

/-- googleSheetsService.normalizeGameName: lowercase, trim, strip version
tokens, strip a leading article, replace bracketed segments by a space,
collapse whitespace, trim. -/
def normalizeGameName (name : String) : String :=
  let cs := name.toList.map Char.toLower
  let cs := trimWS cs
  let cs := stripVer cs
  let cs := stripArticle cs
  let cs := stripBrackets cs
  let cs := collapseWS cs
  (trimWS cs).asString

/-! ## googleSheetsService: persisted records, merge, lookup, numbering -/

/-- A download-link object as stored with a record. -/
structure DLink where
  provider : String
  url : String
  platform : String
  version : String
  deriving Repr, DecidableEq

/-- A per-link size entry as stored with a record. -/
structure SizeEntry where
  provider : String
  platform : String
  size_bytes : Nat
  size_gb : String
  url : String
  deriving Repr, DecidableEq

/-- A persisted record as `getAllGames` returns it (every cell a string,
JSON columns parsed back into lists). -/
structure SheetGame where
  game_number : Nat
  game_name : String
  version : String
  developer : String
  release_date : String
  original_url : String
  cover_image : String
  description : String
  tags : List String
  total_size_gb : String
  total_size_bytes : Nat
  download_links : List DLink
  individual_sizes : List SizeEntry
  extracted_date : String
  deriving Repr, DecidableEq

/-- An incoming candidate record (`newGameData` of `updateGameData`):
a JS object whose fields may each be missing (`none`). -/
structure CandidateGame where
  game_number : Option Nat
  game_name : Option String
  version : Option String
  developer : Option String
  release_date : Option String
  original_url : Option String
  cover_image : Option String
  description : Option String
  tags : Option (List String)
  total_size_gb : Option String
  total_size_bytes : Option Nat
  download_links : Option (List DLink)
  individual_sizes : Option (List SizeEntry)
  deriving Repr, DecidableEq

/-- JS `newValue || existingValue` on string fields: missing and `""` are
falsy. -/
def jsOrStr : Option String → String → String
  | some s, e => if s = "" then e else s
  | none, e => e

/-- JS `newValue || existingValue` on numeric fields: missing and `0` are
falsy. -/
def jsOrNat : Option Nat → Nat → Nat
  | some n, e => if n = 0 then e else n
  | none, e => e

/-- JS `newList && newList.length > 0 ? newList : existingList`. -/
def jsOrList {α : Type} : Option (List α) → List α → List α
  | some l, e => if l.length = 0 then e else l
  | none, e => e

/-- The merge of `updateGameData` (part_003 lines 240-257): new data where
available, existing data otherwise; the game number is read only from
`existingGame`; the extraction date is set to `now`. -/
def updateMerge (existing : SheetGame) (cand : CandidateGame) (now : String) :
    SheetGame where
  game_number := existing.game_number
  game_name := jsOrStr cand.game_name existing.game_name
  version := jsOrStr cand.version existing.version
  developer := jsOrStr cand.developer existing.developer
  release_date := jsOrStr cand.release_date existing.release_date
  original_url := jsOrStr cand.original_url existing.original_url
  cover_image := jsOrStr cand.cover_image existing.cover_image
  description := jsOrStr cand.description existing.description
  tags := jsOrList cand.tags existing.tags
  total_size_gb := jsOrStr cand.total_size_gb existing.total_size_gb
  total_size_bytes := jsOrNat cand.total_size_bytes existing.total_size_bytes
  download_links := jsOrList cand.download_links existing.download_links
  individual_sizes := jsOrList cand.individual_sizes existing.individual_sizes
  extracted_date := now

/-- A JS argument value as the lookup functions receive it. -/
inductive JsArg where
  | absent
  | nullv
  | num (n : Int)
  | str (s : String)
  deriving Repr, DecidableEq

/-- JS truthiness of a `JsArg`. -/
def JsArg.truthy : JsArg → Bool
  | .absent => false
  | .nullv => false
  | .num n => n != 0
  | .str s => s != ""

def JsArg.isStringArg : JsArg → Bool
  | .str _ => true
  | _ => false

/-- `normalizeGameName` as called on an arbitrary JS value: the function
returns `""` for any non-string input. -/
def normalizeArg : JsArg → String
  | .str s => normalizeGameName s
  | _ => ""

inductive MatchType where
  | url
  | name
  deriving Repr, DecidableEq

/-- googleSheetsService.checkGameExists (part_003 lines 413-450) over the
already-read record list: guard the url argument, then first exact
original-url match, then (when a truthy name is given and normalizes to a
non-empty string) first normalized-name match, else `null`. -/
def checkGameExists (games : List SheetGame) (gameUrl gameName : JsArg) :
    Option (SheetGame × MatchType) :=
  if !(gameUrl.truthy && gameUrl.isStringArg) then none
  else
    let url := match gameUrl with | .str s => s | _ => ""
    match games.find? (fun g => g.original_url = url) with
    | some g => some (g, .url)
    | none =>
      if gameName.truthy then
        let nn := normalizeArg gameName
        if nn = "" then none
        else
          match games.find? (fun g => normalizeGameName g.game_name = nn) with
          | some g => some (g, .name)
          | none => none
      else none

/-- getLastGameNumber (part_003 lines 116-152) over the stored first-column
numbers: the maximum of the positive ones, `0` when there are none. -/
def lastGameNumber (nums : List Nat) : Nat :=
  (nums.filter (fun n => decide (0 < n))).foldl max 0

/-- One stored row, reduced to its number (the natural key) and its payload. -/
structure SheetRow where
  num : Nat
  payload : String
  deriving Repr, DecidableEq

/-- addGameData (part_003 lines 153-218): append a row numbered one plus the
last game number. -/
def addRow (rows : List SheetRow) (payload : String) : List SheetRow :=
  rows ++ [⟨lastGameNumber (rows.map (·.num)) + 1, payload⟩]

/-- updateGameData's write (part_003 lines 273-302): overwrite the first row
whose number equals the existing record's number, keeping that number
(`row[0] := gameNumber`); when no row matches the function throws and the
store is unchanged. -/
def updateRow : List SheetRow → Nat → String → List SheetRow
  | [], _, _ => []
  | r :: rest, k, payload =>
    if r.num = k then { num := k, payload := payload } :: rest
    else r :: updateRow rest k payload

/-- A pipeline write operation against the store. -/
inductive SheetOp where
  | ins (payload : String)
  | upd (k : Nat) (payload : String)
  deriving Repr, DecidableEq

def applyOp (rows : List SheetRow) : SheetOp → List SheetRow
  | .ins p => addRow rows p
  | .upd k p => updateRow rows k p

def applyOps (ops : List SheetOp) (rows : List SheetRow) : List SheetRow :=
  ops.foldl applyOp rows

/-! ## aiService: AI extraction with deterministic fallback -/

structure ImageRef where
  src : String
  alt : String
  deriving Repr, DecidableEq

structure LinkRef where
  href : String
  text : String
  deriving Repr, DecidableEq

/-- A raw page artifact as scrapePage produces it. -/
structure PageData where
  title : String
  content : String
  images : List ImageRef
  links : List LinkRef
  deriving Repr, DecidableEq

/-- A download link as the AI may return it (fields may be missing). -/
structure RawLink where
  provider : Option String
  url : Option String
  platform : Option String
  version : Option String
  deriving Repr, DecidableEq

/-- The JSON object parsed from the AI response (fields may be missing). -/
structure RawGameData where
  game_name : Option String
  version : Option String
  developer : Option String
  release_date : Option String
  cover_image : Option String
  description : Option String
  tags : Option (List String)
  download_links : Option (List RawLink)
  file_size : Option String
  deriving Repr, DecidableEq

/-- An extracted record as aiService returns it. -/
structure GameData where
  game_name : String
  version : String
  developer : String
  release_date : Option String
  cover_image : Option String
  description : String
  tags : List String
  download_links : List DLink
  file_size : Option String
  original_url : String
  deriving Repr, DecidableEq

/-- JS `value || defaultValue` on an optional string. -/
def jsDefault : Option String → String → String
  | some s, d => if s = "" then d else s
  | none, d => d

/-- JS `value || null` on an optional string. -/
def jsOrNull : Option String → Option String
  | some s => if s = "" then none else some s
  | none => none

/-- aiService.validateAndCleanGameData (lines 92-115): default every field,
normalize each download link, drop links with a falsy url. -/
def validateAndCleanGameData (data : RawGameData) (original_url : String) :
    GameData :=
  let version := jsDefault data.version "Unknown"
  { game_name := jsDefault data.game_name "Unknown Game"
    version := version
    developer := jsDefault data.developer "Unknown"
    release_date := jsOrNull data.release_date
    cover_image := jsOrNull data.cover_image
    description := (data.description).getD ""
    tags := (data.tags).getD []
    download_links :=
      ((data.download_links).getD []).map
        (fun l =>
          { provider := jsDefault l.provider "Unknown"
            url := (jsOrNull l.url).getD ""
            platform := jsDefault l.platform "PC"
            version := jsDefault l.version version : DLink })
        |>.filter (fun l => l.url != "")
    file_size := jsOrNull data.file_size
    original_url := original_url }

/-- First match of `/v?(\d+\.?\d*\.?\d*\.?\d*)/i` at one position: optional
`v`, then greedy digit groups separated by optional dots.  Nothing follows
the greedy parts, so no backtracking arises.  Returns the match length. -/
def versionAt (cs : List Char) : Option Nat :=
  let step : List Char → Nat × List Char := fun l =>
    match l with
    | '.' :: r =>
      let d := runLen isDigitChar r
      (1 + d, r.drop d)
    | _ => (0, l)
  let core : List Char → Option Nat := fun l =>
    let d1 := runLen isDigitChar l
    if d1 = 0 then none
    else
      let (a1, l2) := step (l.drop d1)
      let (a2, l3) := step l2
      let (a3, _) := step l3
      some (d1 + a1 + a2 + a3)
  match cs with
  | [] => none
  | c :: rest =>
    if c = 'v' || c = 'V' then
      match core rest with
      | some n => some (n + 1)
      | none => none
    else core cs

/-- Leftmost match of the fallback version regex over the content. -/
def firstVersionMatch : List Char → Option (List Char)
  | [] => none
  | c :: rest =>
    match versionAt (c :: rest) with
    | some n => some ((c :: rest).take n)
    | none => firstVersionMatch rest

/-- Does `needle` occur contiguously in the list? -/
def containsList (needle : List Char) : List Char → Bool
  | [] => needle.isEmpty
  | c :: rest => needle.isPrefixOf (c :: rest) || containsList needle rest

/-- JS `String.prototype.split` with a plain non-empty string separator. -/
def splitGo (sep : List Char) : List Char → List Char → Nat → List (List Char)
  | acc, l, 0 => [acc.reverse ++ l]
  | acc, [], _ => [acc.reverse]
  | acc, c :: rest, fuel + 1 =>
    if sep.isPrefixOf (c :: rest) && !sep.isEmpty then
      acc.reverse :: splitGo sep [] ((c :: rest).drop sep.length) fuel
    else splitGo sep (c :: acc) rest fuel

def splitStr (s sep : String) : List String :=
  (splitGo sep.toList [] s.toList (s.toList.length + 1)).map List.asString

/-- JS `String.prototype.trim` on a `String`. -/
def trimStr (s : String) : String := (trimWS s.toList).asString

def takeStr (n : Nat) (s : String) : String := (s.toList.take n).asString

/-- JS `String.prototype.includes` (case sensitive). -/
def containsSub (hay needle : String) : Bool :=
  containsList needle.toList hay.toList

def lowerStr (s : String) : String := (s.toList.map Char.toLower).asString

/-- The provider chain of fallbackExtraction (lines 148-153). -/
def providerOf (href : String) : String :=
  if containsSub href "mega.nz" then "MEGA"
  else if containsSub href "drive.google.com" then "Google Drive"
  else if containsSub href "mediafire.com" then "MediaFire"
  else if containsSub href "gofile.io" then "GoFile"
  else if containsSub href "pixeldrain.com" then "PixelDrain"
  else "Unknown"

/-- The link filter of fallbackExtraction (lines 138-146). -/
def fallbackLinkPred (l : LinkRef) : Bool :=
  containsSub l.href "mega.nz" || containsSub l.href "drive.google.com" ||
  containsSub l.href "mediafire.com" || containsSub l.href "gofile.io" ||
  containsSub l.href "pixeldrain.com" || containsSub (lowerStr l.text) "pc"

/-- aiService.fallbackExtraction (lines 117-175): name from the title before
the first " - " or "|", version from the first regex match over the content,
cover by attachment/cover hints, links by provider-host filtering. -/
def fallbackExtraction (pageData : PageData) (originalUrl : String) :
    GameData :=
  let gameName :=
    jsDefault (some ((splitStr pageData.title " - ").headD ""))
      (jsDefault (some ((splitStr pageData.title "|").headD "")) "Unknown Game")
  let version :=
    match firstVersionMatch pageData.content.toList with
    | some m => m.asString
    | none => "Unknown"
  let coverImage :=
    (pageData.images.find? (fun img =>
      containsSub img.src "attachments" || containsSub img.src "cover" ||
      containsSub (lowerStr img.alt) "cover")).map (·.src)
  let downloadLinks :=
    (pageData.links.filter fallbackLinkPred).map
      (fun l =>
        { provider := providerOf l.href
          url := l.href
          platform := "PC"
          version := version : DLink })
  { game_name := trimStr gameName
    version := version
    developer := "Unknown"
    release_date := none
    cover_image := coverImage
    description := takeStr 200 pageData.content ++ "..."
    tags := []
    download_links := downloadLinks
    file_size := none
    original_url := originalUrl }

/-- aiService.extractGameData (lines 14-90).  `configured` is whether the
model handle exists; `aiResponse` is the outcome of the try block around the
service call (`none` = the call threw or its output failed to parse as
JSON, `some d` = the parsed object).  When unconfigured the function throws
before the try block; inside the try block every failure falls back. -/
def extractGameData (configured : Bool) (aiResponse : Option RawGameData)
    (pageData : PageData) (originalUrl : String) : Except String GameData :=
  if !configured then .error "Google Gemini API key not configured"
  else
    match aiResponse with
    | some d => .ok (validateAndCleanGameData d originalUrl)
    | none => .ok (fallbackExtraction pageData originalUrl)

/-! ## scraperService: download-size aggregation -/

/-- JS `(bytes / (1024*1024*1024)).toFixed(2)` as hundredths of a gibibyte:
division by `2^30` is exact in a double for `bytes < 2^53`, and `toFixed`
rounds to the nearest hundredth with ties away from zero. -/
def gbHundredths (bytes : Nat) : Nat := (bytes * 200 + 2 ^ 30) / 2 ^ 31

def pad2 (n : Nat) : String := if n < 10 then "0" ++ toString n else toString n

def toFixed2GB (bytes : Nat) : String :=
  toString (gbHundredths bytes / 100) ++ "." ++ pad2 (gbHundredths bytes % 100)

/-- A download link together with the value `getFileSizeFromUrl` resolves
for it.  That helper catches every probe failure and returns `0` (lines
304-369), so an unresolvable link is a link whose `probedSize` is `0`. -/
structure ProbeLink where
  provider : String
  platform : String
  url : String
  probedSize : Nat
  deriving Repr, DecidableEq

structure SizeData where
  total_size_bytes : Nat
  total_size_gb : String
  individual_sizes : List SizeEntry
  deriving Repr, DecidableEq

/-- The per-link entry getDownloadSizes pushes for a resolvable link. -/
def mkSizeEntry (l : ProbeLink) : SizeEntry where
  provider := l.provider
  platform := l.platform
  size_bytes := l.probedSize
  size_gb := toFixed2GB l.probedSize
  url := l.url

/-- The per-link loop of getDownloadSizes (lines 282-299): links whose
resolved size is positive contribute to the total and get an entry. -/
def sizeLoop : List ProbeLink → Nat × List SizeEntry
  | [] => (0, [])
  | l :: rest =>
    let (t, es) := sizeLoop rest
    if 0 < l.probedSize then (l.probedSize + t, mkSizeEntry l :: es)
    else (t, es)

/-- scraperService.getDownloadSizes (lines 271-303); `none` models a missing
or non-array `downloadLinks` argument. -/
def getDownloadSizes (downloadLinks : Option (List ProbeLink)) : SizeData :=
  match downloadLinks with
  | none => { total_size_bytes := 0, total_size_gb := "0.00", individual_sizes := [] }
  | some links =>
    let (t, es) := sizeLoop links
    { total_size_bytes := t, total_size_gb := toFixed2GB t, individual_sizes := es }

/-! ## scraperService: scrape retry policy -/

/-- The outcome of one `scrapePage` attempt: a page value, or a thrown error
with its authentication category (whether the message contains
"requires authentication", "login" or "session expired") and an identity. -/
inductive AttemptResult where
  | ok (page : Nat)
  | fail (isAuth : Bool) (code : Nat)
  deriving Repr, DecidableEq

/-- Side effects the retry loop performs between attempts. -/
inductive RetryAction where
  | reauth (attempt : Nat)
  | wait (ms : Nat)
  deriving Repr, DecidableEq

/-- What scrapePageWithRetry ends with when no attempt succeeds. -/
inductive RetryError where
  | authFailedAfter (n : Nat)
  | raised (isAuth : Bool) (code : Nat)
  | noAttempts
  deriving Repr, DecidableEq

/-- One iteration shape of the loop in scrapePageWithRetry (lines 465-502):
`attempt` is the 1-based attempt counter, `remaining` the attempts left
(the loop's final attempt is the one with `remaining = 1`, i.e.
`attempt = maxRetries`), `lastErr` the last caught error.  `reauthOk i`
is what `handleAuthenticationExpiry` returns on attempt `i`. -/
def retryAux (outcome : Nat → AttemptResult) (reauthOk : Nat → Bool)
    (maxRetries : Nat) :
    Nat → Nat → Option (Bool × Nat) → List RetryAction →
    Except RetryError Nat × List RetryAction
  | _, 0, lastErr, acc =>
    (match lastErr with
     | some (a, c) => .error (.raised a c)
     | none => .error .noAttempts, acc)
  | attempt, r + 1, _, acc =>
    match outcome attempt with
    | .ok v => (.ok v, acc)
    | .fail isAuth code =>
      if isAuth then
        let acc := acc ++ [.reauth attempt]
        let ok := reauthOk attempt
        if !ok && r = 0 then (.error (.authFailedAfter maxRetries), acc)
        else if r = 0 then (.error (.raised true code), acc)
        else
          retryAux outcome reauthOk maxRetries (attempt + 1) r
            (some (true, code)) (acc ++ [.wait (attempt * 2000)])
      else
        if r = 0 then (.error (.raised false code), acc)
        else
          retryAux outcome reauthOk maxRetries (attempt + 1) r
            (some (false, code)) (acc ++ [.wait (attempt * 2000)])

/-- scraperService.scrapePageWithRetry: run up to `maxRetries` attempts. -/
def scrapePageWithRetry (outcome : Nat → AttemptResult)
    (reauthOk : Nat → Bool) (maxRetries : Nat) :
    Except RetryError Nat × List RetryAction :=
  retryAux outcome reauthOk maxRetries 1 maxRetries none []

/-! ## Server pipeline: progress events (part_002 lines 100-216, 403-466) -/

inductive PEvent where
  | progress (step : Nat) (total : Nat) (msg : String)
  | completed
  | errorEv (msg : String)
  deriving Repr, DecidableEq

/-- The stage outcomes of one `/api/scrape` run with a subscribed progress
session.  `checkThrows` is a `checkGameExists` failure (logged and treated
as no existing game); `sizesThrow` a `getDownloadSizes` failure (replaced
by a zero-size result); both are non-fatal in the handler. -/
structure RunOutcome where
  scrapeOk : Bool
  extractOk : Bool
  checkThrows : Bool
  foundExisting : Bool
  sizesThrow : Bool
  saveOk : Bool
  deriving Repr, DecidableEq

/-- The progress events the handler sends, in order.  Each stage's progress
event is emitted before the stage runs; a fatal stage failure emits one
error event and returns; success ends with one completed event. -/
def scrapeEvents (o : RunOutcome) : List PEvent :=
  [.progress 1 6 "Scraping F95Zone page..."] ++
  if !o.scrapeOk then [.errorEv "Failed to scrape page"] else
  [.progress 2 6 "Extracting game data with AI..."] ++
  if !o.extractOk then [.errorEv "AI extraction failed"] else
  [.progress 3 6 "Checking for existing game..."] ++
  (if !o.checkThrows && o.foundExisting then
    [.progress 3 6 "Found existing game, will update..."] else []) ++
  [.progress 4 6 "Calculating download sizes..."] ++
  [.progress 5 6 "Preparing data for Google Sheets..."] ++
  [.progress 6 6 "Saving game..."] ++
  if !o.saveOk then [.errorEv "Failed to save to Google Sheets"] else
  [.completed]

/-- The step indices of the progress events of a stream. -/
def stepsOf (evs : List PEvent) : List Nat :=
  evs.filterMap fun e =>
    match e with
    | .progress s _ _ => some s
    | _ => none

def strictIncr : List Nat → Bool
  | [] => true
  | [_] => true
  | a :: b :: rest => a < b && strictIncr (b :: rest)

def nonDecr : List Nat → Bool
  | [] => true
  | [_] => true
  | a :: b :: rest => a ≤ b && nonDecr (b :: rest)

def countCompleted (evs : List PEvent) : Nat :=
  evs.countP fun e => match e with | .completed => true | _ => false

def countError (evs : List PEvent) : Nat :=
  evs.countP fun e => match e with | .errorEv _ => true | _ => false

def lastIsCompleted (evs : List PEvent) : Bool :=
  match evs.getLast? with
  | some .completed => true
  | _ => false

def lastIsError (evs : List PEvent) : Bool :=
  match evs.getLast? with
  | some (.errorEv _) => true
  | _ => false

/-! ## Shared helper lemmas -/

theorem find?_split {α : Type} (p : α → Bool) (pre post : List α) (g : α)
    (hpre : ∀ a ∈ pre, p a = false) (hg : p g = true) :
    (pre ++ g :: post).find? p = some g := by
  induction pre with
  | nil => simp [hg]
  | cons a l ih =>
    have ha : p a = false := hpre a (by simp)
    simp only [List.cons_append, List.find?_cons, ha]
    exact ih fun x hx => hpre x (by simp [hx])

theorem foldl_max_init (l : List Nat) : ∀ a, a ≤ l.foldl max a := by
  induction l with
  | nil => intro a; simp
  | cons b t ih =>
    intro a
    calc a ≤ max a b := le_max_left a b
    _ ≤ t.foldl max (max a b) := ih (max a b)

theorem mem_le_foldl_max (l : List Nat) : ∀ a x, x ∈ l → x ≤ l.foldl max a := by
  induction l with
  | nil => intro a x hx; cases hx
  | cons b t ih =>
    intro a x hx
    rcases List.mem_cons.mp hx with h | h
    · subst h
      calc x ≤ max a x := le_max_right a x
      _ ≤ t.foldl max (max a x) := foldl_max_init t (max a x)
    · exact ih (max a b) x h

/-- Spec-side predicate: the merged value prefers a present, non-empty new
string and otherwise retains the existing one. -/
def PrefStr (n : Option String) (e m : String) : Prop :=
  (∀ v, n = some v → v ≠ "" → m = v) ∧ ((n = none ∨ n = some "") → m = e)

/-- Spec-side predicate for numeric fields (a missing or zero value counts
as absent/empty). -/
def PrefNat (n : Option Nat) (e m : Nat) : Prop :=
  (∀ v, n = some v → v ≠ 0 → m = v) ∧ ((n = none ∨ n = some 0) → m = e)

/-- Spec-side predicate for list fields (a missing or empty list counts as
absent/empty). -/
def PrefList {α : Type} (n : Option (List α)) (e m : List α) : Prop :=
  (∀ v, n = some v → v ≠ [] → m = v) ∧ ((n = none ∨ n = some []) → m = e)

theorem jsOrStr_pref (n : Option String) (e : String) : PrefStr n e (jsOrStr n e) := by
  constructor
  · intro v hv hne
    subst hv
    simp [jsOrStr, hne]
  · intro h
    rcases h with h | h <;> subst h <;> simp [jsOrStr]

theorem jsOrNat_pref (n : Option Nat) (e : Nat) : PrefNat n e (jsOrNat n e) := by
  constructor
  · intro v hv hne
    subst hv
    simp [jsOrNat, hne]
  · intro h
    rcases h with h | h <;> subst h <;> simp [jsOrNat]

theorem jsOrList_pref {α : Type} (n : Option (List α)) (e : List α) :
    PrefList n e (jsOrList n e) := by
  constructor
  · intro v hv hne
    subst hv
    simp [jsOrList, List.length_eq_zero, hne]
  · intro h
    rcases h with h | h <;> subst h <;> simp [jsOrList]

theorem jsDefault_ne (o : Option String) (d : String) (hd : d ≠ "") :
    jsDefault o d ≠ "" := by
  cases o with
  | none => simpa [jsDefault] using hd
  | some s =>
    by_cases hs : s = "" <;> simp [jsDefault, hs, hd]

/-! ## Claim theorems -/

/-- Existing record of the spec's merge example: name "Old", version "1.0",
size 5 bytes. -/
def mergeExampleExisting : SheetGame where
  game_number := 7
  game_name := "Old"
  version := "1.0"
  developer := "Dev"
  release_date := "2020"
  original_url := "https://f95zone.to/threads/old.7/"
  cover_image := "img"
  description := "desc"
  tags := ["tag"]
  total_size_gb := "0.00"
  total_size_bytes := 5
  download_links := []
  individual_sizes := []
  extracted_date := "2020-01-01"

/-- Candidate of the spec's merge example: empty name, version "1.1", size
absent, a candidate number that must be ignored. -/
def mergeExampleCandidate : CandidateGame where
  game_number := some 99
  game_name := some ""
  version := some "1.1"
  developer := none
  release_date := none
  original_url := none
  cover_image := none
  description := none
  tags := none
  total_size_gb := none
  total_size_bytes := none
  download_links := none
  individual_sizes := none

/-- C1: updateGameData merges field-by-field, preferring each present,
non-empty candidate value and otherwise keeping the existing value; the
merged game number is the existing record's number whatever number the
candidate carries, and the extraction timestamp is set to now.  The spec's
example instance (existing name "Old"/version "1.0"/size 5 merged with
candidate name ""/version "1.1"/size absent) is included. -/
theorem updateMerge_spec (e : SheetGame) (c : CandidateGame) (now : String) :
    PrefStr c.game_name e.game_name (updateMerge e c now).game_name ∧
    PrefStr c.version e.version (updateMerge e c now).version ∧
    PrefStr c.developer e.developer (updateMerge e c now).developer ∧
    PrefStr c.release_date e.release_date (updateMerge e c now).release_date ∧
    PrefStr c.original_url e.original_url (updateMerge e c now).original_url ∧
    PrefStr c.cover_image e.cover_image (updateMerge e c now).cover_image ∧
    PrefStr c.description e.description (updateMerge e c now).description ∧
    PrefList c.tags e.tags (updateMerge e c now).tags ∧
    PrefStr c.total_size_gb e.total_size_gb (updateMerge e c now).total_size_gb ∧
    PrefNat c.total_size_bytes e.total_size_bytes (updateMerge e c now).total_size_bytes ∧
    PrefList c.download_links e.download_links (updateMerge e c now).download_links ∧
    PrefList c.individual_sizes e.individual_sizes (updateMerge e c now).individual_sizes ∧
    (updateMerge e c now).game_number = e.game_number ∧
    (updateMerge e c now).extracted_date = now ∧
    updateMerge mergeExampleExisting mergeExampleCandidate now =
      { mergeExampleExisting with version := "1.1", extracted_date := now } := by
  refine ⟨jsOrStr_pref _ _, jsOrStr_pref _ _, jsOrStr_pref _ _, jsOrStr_pref _ _,
    jsOrStr_pref _ _, jsOrStr_pref _ _, jsOrStr_pref _ _, jsOrList_pref _ _,
    jsOrStr_pref _ _, jsOrNat_pref _ _, jsOrList_pref _ _, jsOrList_pref _ _,
    rfl, rfl, rfl⟩

/-- C3 counterexample: normalizeGameName is not idempotent.  For
"v(x)1.0" one pass removes the bracketed segment, leaving "v 1.0", and a
second pass then removes that whole version token, leaving "". -/
theorem normalizeGameName_not_idempotent :
    normalizeGameName "v(x)1.0" = "v 1.0" ∧
    normalizeGameName (normalizeGameName "v(x)1.0") = "" ∧
    normalizeGameName (normalizeGameName "v(x)1.0") ≠ normalizeGameName "v(x)1.0" := by
  refine ⟨by decide, by decide, by decide⟩

/-- C3 amended: the two spec examples both normalize to "game title", and
normalization is idempotent on that already-normalized output (though not
idempotent for every string). -/
theorem normalizeGameName_examples :
    normalizeGameName "The Game Title v1.2 [Dev]" = "game title" ∧
    normalizeGameName "Game Title Version 1.2" = "game title" ∧
    normalizeGameName "game title" = "game title" := by
  refine ⟨by decide, by decide, by decide⟩

/-- C10: when the url argument of checkGameExists is absent, null or not a
string, the guard returns null whatever the name argument is (the function
is total, so no error is raised). -/
theorem checkGameExists_invalid_url (games : List SheetGame) (name : JsArg)
    (n : Int) :
    checkGameExists games .absent name = none ∧
    checkGameExists games .nullv name = none ∧
    checkGameExists games (.num n) name = none := by
  refine ⟨rfl, rfl, ?_⟩
  simp [checkGameExists, JsArg.truthy, JsArg.isStringArg]

/-- An artifact whose title's text before the first " - " delimiter is pure
whitespace. -/
def blankTitleArtifact : PageData where
  title := "  - x"
  content := "c"
  images := []
  links := []

/-- C4 counterexample: with the extraction service unconfigured,
extractGameData throws "Google Gemini API key not configured" instead of
falling back (the repository's own error-handling test expects this
throw); and the fallback path itself can return an empty-string name, so a
returned record is not always structurally valid in the claim's sense. -/
theorem extractGameData_unconfigured_throws :
    extractGameData false none blankTitleArtifact "https://u/" =
      .error "Google Gemini API key not configured" ∧
    (fallbackExtraction blankTitleArtifact "https://u/").game_name = "" := by
  refine ⟨rfl, by decide⟩

/-- C4 amended: extractGameData raises immediately when the extraction
service is unconfigured (no fallback); once configured it never raises —
any failure of the primary path (the call throwing or its output failing to
parse) transparently yields the deterministic fallback record — and a
record cleaned from a parsed primary response always has a non-empty name;
the fallback record is array-typed in tags/links and carries the source
url, but its name may be empty in the degenerate delimiter case of the
counterexample. -/
theorem extractGameData_total (ai : Option RawGameData) (p : PageData)
    (u : String) :
    (extractGameData false ai p u =
      .error "Google Gemini API key not configured") ∧
    (∃ r, extractGameData true ai p u = .ok r) ∧
    (∀ d, ai = some d →
      extractGameData true ai p u = .ok (validateAndCleanGameData d u) ∧
      (validateAndCleanGameData d u).game_name ≠ "" ∧
      (validateAndCleanGameData d u).original_url = u) ∧
    (ai = none →
      extractGameData true ai p u = .ok (fallbackExtraction p u) ∧
      (fallbackExtraction p u).tags = [] ∧
      (fallbackExtraction p u).original_url = u) := by
  refine ⟨rfl, ?_, ?_, ?_⟩
  · cases ai with
    | some d => exact ⟨validateAndCleanGameData d u, rfl⟩
    | none => exact ⟨fallbackExtraction p u, rfl⟩
  · intro d hd
    subst hd
    exact ⟨rfl, jsDefault_ne _ _ (by decide), rfl⟩
  · intro h
    subst h
    exact ⟨rfl, rfl, rfl⟩

/-- The provider labels the fallback link mapper can assign besides
"Unknown". -/
def recognizedProviders : List String :=
  ["MEGA", "Google Drive", "MediaFire", "GoFile", "PixelDrain"]

/-- The spec's mocked end-to-end artifact: title "Sample Game - v1.0 [Dev]"
and two links on known file-hosting providers; the content carries the
release number in plain "1.0" form, which is what the fallback regex
returns as `match[0]`. -/
def sampleArtifact : PageData where
  title := "Sample Game - v1.0 [Dev]"
  content := "Sample Game build 1.0 changelog"
  images := []
  links := [{ href := "https://mega.nz/file/abc", text := "MEGA" },
            { href := "https://pixeldrain.com/u/xyz", text := "PixelDrain PC" }]

/-- C5: on the mocked artifact, a forced extraction-service failure still
yields, via the deterministic fallback, a record whose name contains
"Sample Game", whose version is "1.0", and whose download links include at
least one entry with a recognized provider label. -/
theorem extract_sample_scenario :
    extractGameData true none sampleArtifact
        "https://f95zone.to/threads/sample-game.1/" =
      .ok (fallbackExtraction sampleArtifact
        "https://f95zone.to/threads/sample-game.1/") ∧
    containsSub
      (fallbackExtraction sampleArtifact
        "https://f95zone.to/threads/sample-game.1/").game_name
      "Sample Game" = true ∧
    (fallbackExtraction sampleArtifact
      "https://f95zone.to/threads/sample-game.1/").version = "1.0" ∧
    0 < ((fallbackExtraction sampleArtifact
          "https://f95zone.to/threads/sample-game.1/").download_links.filter
        fun l => decide (l.provider ∈ recognizedProviders)).length := by
  refine ⟨rfl, by decide, by decide, by decide⟩

theorem sizeLoop_fst (links : List ProbeLink) :
    (sizeLoop links).1 =
      ((links.filter fun l => decide (0 < l.probedSize)).map (·.probedSize)).sum := by
  induction links with
  | nil => rfl
  | cons l rest ih =>
    by_cases h : 0 < l.probedSize <;> simp [sizeLoop, h, ih]

theorem sizeLoop_snd (links : List ProbeLink) :
    (sizeLoop links).2 =
      (links.filter fun l => decide (0 < l.probedSize)).map mkSizeEntry := by
  induction links with
  | nil => rfl
  | cons l rest ih =>
    by_cases h : 0 < l.probedSize <;> simp [sizeLoop, h, ih]

/-- The size-aggregation example: links resolving to 1 GiB and 2 GiB plus an
unresolvable link (the size probe returns 0 for it). -/
def sizeExampleLinks : List ProbeLink :=
  [{ provider := "MEGA", platform := "PC", url := "https://mega.nz/file/a",
     probedSize := 1073741824 },
   { provider := "GoFile", platform := "PC", url := "https://gofile.io/d/b",
     probedSize := 2147483648 },
   { provider := "Unknown", platform := "PC", url := "https://host/x",
     probedSize := 0 }]

/-- C6: getDownloadSizes totals exactly the links whose probe yields a
positive size, emits one per-link entry for each of those (a failing link
is omitted without failing the batch), renders the total in 1024-based GiB
to two decimals, and returns the zero-total result for a missing or empty
link list.  The spec's 1 GiB + 2 GiB + unresolvable example gives total
3221225472 bytes, "3.00" GiB and exactly two entries. -/
theorem getDownloadSizes_spec (links : List ProbeLink) :
    (getDownloadSizes (some links)).total_size_bytes =
      ((links.filter fun l => decide (0 < l.probedSize)).map (·.probedSize)).sum ∧
    (getDownloadSizes (some links)).individual_sizes =
      (links.filter fun l => decide (0 < l.probedSize)).map mkSizeEntry ∧
    (getDownloadSizes (some links)).total_size_gb =
      toFixed2GB
        ((links.filter fun l => decide (0 < l.probedSize)).map (·.probedSize)).sum ∧
    getDownloadSizes none =
      { total_size_bytes := 0, total_size_gb := "0.00", individual_sizes := [] } ∧
    getDownloadSizes (some []) =
      { total_size_bytes := 0, total_size_gb := "0.00", individual_sizes := [] } ∧
    (getDownloadSizes (some sizeExampleLinks)).total_size_bytes = 3221225472 ∧
    (getDownloadSizes (some sizeExampleLinks)).total_size_gb = "3.00" ∧
    (getDownloadSizes (some sizeExampleLinks)).individual_sizes.length = 2 := by
  refine ⟨?_, ?_, ?_, rfl, by decide, by decide, by decide, by decide⟩
  · simpa [getDownloadSizes] using sizeLoop_fst links
  · simpa [getDownloadSizes] using sizeLoop_snd links
  · simp [getDownloadSizes, sizeLoop_fst links]

/-- A persisted record for the reconciliation round-trip. -/
def roundTripGame : SheetGame where
  game_number := 1
  game_name := "Game Title v1.0"
  version := "1.0"
  developer := "Dev"
  release_date := ""
  original_url := "https://f95zone.to/threads/game-title.1/"
  cover_image := ""
  description := ""
  tags := []
  total_size_gb := "0.00"
  total_size_bytes := 0
  download_links := []
  individual_sizes := []
  extracted_date := "2024-01-01"

/-- A persisted record whose stored name normalizes to the empty string. -/
def emptyNormGame : SheetGame where
  game_number := 2
  game_name := "v2.0"
  version := "2.0"
  developer := "Dev"
  release_date := ""
  original_url := "https://f95zone.to/threads/a.2/"
  cover_image := ""
  description := ""
  tags := []
  total_size_gb := "0.00"
  total_size_bytes := 0
  download_links := []
  individual_sizes := []
  extracted_date := "2024-01-01"

/-- C2 counterexample: a name is supplied ("v1.0") and a stored record's
name ("v2.0") equals it after normalization of both (both normalize to
""), yet checkGameExists returns null because it only attempts the name
match when the supplied name's normalization is non-empty. -/
theorem checkGameExists_emptyNorm_null :
    normalizeGameName "v1.0" = normalizeGameName emptyNormGame.game_name ∧
    emptyNormGame.original_url ≠ "https://f95zone.to/threads/b.3/" ∧
    checkGameExists [emptyNormGame] (.str "https://f95zone.to/threads/b.3/")
      (.str "v1.0") = none := by
  refine ⟨by decide, by decide, by decide⟩

/-- C2 amended: for a non-empty url string, the first record whose stored
original url equals it is returned tagged as a url match; otherwise, when
the supplied name normalizes to a non-empty string, the first record whose
stored name matches it after normalization of both is returned tagged as a
name match; with no match of either kind the result is null.  The
round-trip holds: the stored record is found by its exact url as a url
match, and by a version-bumped name variant (with a non-matching url) as a
name match. -/
theorem checkGameExists_matching (games : List SheetGame) (url nm : String) :
    (url ≠ "" →
      ∀ g pre post, games = pre ++ g :: post → g.original_url = url →
        (∀ g' ∈ pre, g'.original_url ≠ url) →
        checkGameExists games (.str url) (.str nm) = some (g, .url)) ∧
    (url ≠ "" → normalizeGameName nm ≠ "" →
      (∀ g' ∈ games, g'.original_url ≠ url) →
      ∀ g pre post, games = pre ++ g :: post →
        normalizeGameName g.game_name = normalizeGameName nm →
        (∀ g' ∈ pre, normalizeGameName g'.game_name ≠ normalizeGameName nm) →
        checkGameExists games (.str url) (.str nm) = some (g, .name)) ∧
    (url ≠ "" → (∀ g' ∈ games, g'.original_url ≠ url) →
      (∀ g' ∈ games, normalizeGameName g'.game_name ≠ normalizeGameName nm) →
      checkGameExists games (.str url) (.str nm) = none) ∧
    checkGameExists [roundTripGame]
      (.str "https://f95zone.to/threads/game-title.1/")
      (.str "Game Title v2.0") = some (roundTripGame, .url) ∧
    checkGameExists [roundTripGame] (.str "https://elsewhere.example/")
      (.str "Game Title v2.0") = some (roundTripGame, .name) := by
  refine ⟨?_, ?_, ?_, by decide, by decide⟩
  · intro hu g pre post hsplit hg hpre
    subst hsplit
    have hfind :
        (pre ++ g :: post).find? (fun g' => g'.original_url = url) = some g := by
      refine find?_split _ pre post g ?_ (by simpa using hg)
      intro a ha
      simpa using hpre a ha
    simp [checkGameExists, JsArg.truthy, JsArg.isStringArg, hu, hfind]
  · intro hu hn hnourl g pre post hsplit hg hpre
    subst hsplit
    have hnm : nm ≠ "" := by
      intro h
      apply hn
      rw [h]
      decide
    have hfind0 :
        (pre ++ g :: post).find? (fun g' => g'.original_url = url) = none := by
      rw [List.find?_eq_none]
      intro x hx
      simpa using hnourl x hx
    have hfind :
        (pre ++ g :: post).find?
          (fun g' => normalizeGameName g'.game_name = normalizeGameName nm) =
          some g := by
      refine find?_split _ pre post g ?_ (by simpa using hg)
      intro a ha
      simpa using hpre a ha
    simp [checkGameExists, JsArg.truthy, JsArg.isStringArg, hu, hnm, hn,
      hfind0, hfind, normalizeArg]
  · intro hu hnourl hnoname
    have hfind0 :
        games.find? (fun g' => g'.original_url = url) = none := by
      rw [List.find?_eq_none]
      intro x hx
      simpa using hnourl x hx
    by_cases hnm : nm = ""
    · subst hnm
      simp [checkGameExists, JsArg.truthy, JsArg.isStringArg, hu, hfind0]
    · by_cases hn : normalizeGameName nm = ""
      · simp [checkGameExists, JsArg.truthy, JsArg.isStringArg, hu, hnm,
          hfind0, normalizeArg, hn]
      · have hfind :
            games.find?
              (fun g' => normalizeGameName g'.game_name = normalizeGameName nm) =
              none := by
          rw [List.find?_eq_none]
          intro x hx
          simpa using hnoname x hx
        simp [checkGameExists, JsArg.truthy, JsArg.isStringArg, hu, hnm,
          hfind0, hfind, normalizeArg, hn]

theorem updateRow_nums (rows : List SheetRow) (k : Nat) (p : String) :
    (updateRow rows k p).map (·.num) = rows.map (·.num) := by
  induction rows with
  | nil => rfl
  | cons r rest ih =>
    by_cases h : r.num = k <;> simp [updateRow, h, ih]

theorem mem_lt_next (rows : List SheetRow) (r : SheetRow) (hr : r ∈ rows) :
    r.num < lastGameNumber (rows.map (·.num)) + 1 := by
  rcases Nat.eq_zero_or_pos r.num with h0 | hpos
  · omega
  · have hmem : r.num ∈ (rows.map (·.num)).filter fun n => decide (0 < n) :=
      List.mem_filter.mpr ⟨List.mem_map.mpr ⟨r, hr, rfl⟩, by simpa using hpos⟩
    have hle := mem_le_foldl_max _ 0 _ hmem
    unfold lastGameNumber
    omega

theorem addRow_nodup (rows : List SheetRow) (p : String)
    (h : (rows.map (·.num)).Nodup) : ((addRow rows p).map (·.num)).Nodup := by
  unfold addRow
  rw [List.map_append]
  refine List.Nodup.append h (List.nodup_singleton _) ?_
  intro a ha hb
  simp only [List.map_cons, List.map_nil, List.mem_singleton] at hb
  rcases List.mem_map.mp ha with ⟨r, hr, rfl⟩
  have := mem_lt_next rows r hr
  omega

theorem applyOp_nodup (rows : List SheetRow) (op : SheetOp)
    (h : (rows.map (·.num)).Nodup) : ((applyOp rows op).map (·.num)).Nodup := by
  cases op with
  | ins p => exact addRow_nodup rows p h
  | upd k p => simpa [applyOp, updateRow_nums] using h

/-- C7: an insertion assigns one plus the maximum stored positive number,
which is strictly greater than every number already present; an update
rewrites a row but never changes any row's number; hence any sequence of
inserts and updates starting from the empty store keeps all persisted game
numbers pairwise distinct. -/
theorem gameNumbers_unique :
    (∀ (rows : List SheetRow) (p : String),
      addRow rows p =
        rows ++ [{ num := lastGameNumber (rows.map (·.num)) + 1, payload := p }] ∧
      ∀ r ∈ rows, r.num < lastGameNumber (rows.map (·.num)) + 1) ∧
    (∀ (rows : List SheetRow) (k : Nat) (p : String),
      (updateRow rows k p).map (·.num) = rows.map (·.num)) ∧
    (∀ ops : List SheetOp, ((applyOps ops []).map (·.num)).Nodup) := by
  refine ⟨fun rows p => ⟨rfl, fun r hr => mem_lt_next rows r hr⟩,
    updateRow_nums, ?_⟩
  intro ops
  suffices h : ∀ rows, (rows.map (·.num)).Nodup →
      ((applyOps ops rows).map (·.num)).Nodup from h [] (by simp)
  induction ops with
  | nil =>
    intro rows h
    simpa [applyOps] using h
  | cons op rest ih =>
    intro rows h
    have hstep := applyOp_nodup rows op h
    simpa [applyOps] using ih (applyOp rows op) hstep

theorem retryAux_step_ok (outcome : Nat → AttemptResult) (reauthOk : Nat → Bool)
    (N attempt r : Nat) (lastErr : Option (Bool × Nat)) (acc : List RetryAction)
    (v : Nat) (h : outcome attempt = .ok v) :
    retryAux outcome reauthOk N attempt (r + 1) lastErr acc = (.ok v, acc) := by
  simp [retryAux, h]

theorem retryAux_final_auth_noreauth (outcome : Nat → AttemptResult)
    (reauthOk : Nat → Bool) (N attempt : Nat) (lastErr : Option (Bool × Nat))
    (acc : List RetryAction) (code : Nat)
    (h : outcome attempt = .fail true code) (hre : reauthOk attempt = false) :
    retryAux outcome reauthOk N attempt 1 lastErr acc =
      (.error (.authFailedAfter N), acc ++ [.reauth attempt]) := by
  simp [retryAux, h, hre]

theorem retryAux_final_auth_reauth (outcome : Nat → AttemptResult)
    (reauthOk : Nat → Bool) (N attempt : Nat) (lastErr : Option (Bool × Nat))
    (acc : List RetryAction) (code : Nat)
    (h : outcome attempt = .fail true code) (hre : reauthOk attempt = true) :
    retryAux outcome reauthOk N attempt 1 lastErr acc =
      (.error (.raised true code), acc ++ [.reauth attempt]) := by
  simp [retryAux, h, hre]

theorem retryAux_final_nonauth (outcome : Nat → AttemptResult)
    (reauthOk : Nat → Bool) (N attempt : Nat) (lastErr : Option (Bool × Nat))
    (acc : List RetryAction) (code : Nat)
    (h : outcome attempt = .fail false code) :
    retryAux outcome reauthOk N attempt 1 lastErr acc =
      (.error (.raised false code), acc) := by
  simp [retryAux, h]

theorem retryAux_step_auth (outcome : Nat → AttemptResult)
    (reauthOk : Nat → Bool) (N attempt r : Nat) (lastErr : Option (Bool × Nat))
    (acc : List RetryAction) (code : Nat)
    (h : outcome attempt = .fail true code) :
    retryAux outcome reauthOk N attempt (r + 2) lastErr acc =
      retryAux outcome reauthOk N (attempt + 1) (r + 1) (some (true, code))
        (acc ++ [.reauth attempt, .wait (attempt * 2000)]) := by
  simp [retryAux, h]

theorem retryAux_step_nonauth (outcome : Nat → AttemptResult)
    (reauthOk : Nat → Bool) (N attempt r : Nat) (lastErr : Option (Bool × Nat))
    (acc : List RetryAction) (code : Nat)
    (h : outcome attempt = .fail false code) :
    retryAux outcome reauthOk N attempt (r + 2) lastErr acc =
      retryAux outcome reauthOk N (attempt + 1) (r + 1) (some (false, code))
        (acc ++ [.wait (attempt * 2000)]) := by
  simp [retryAux, h]

theorem retryAux_mem_acc (outcome : Nat → AttemptResult) (reauthOk : Nat → Bool)
    (N : Nat) :
    ∀ (r attempt : Nat) (lastErr : Option (Bool × Nat)) (acc : List RetryAction)
      (x : RetryAction), x ∈ acc →
      x ∈ (retryAux outcome reauthOk N attempt r lastErr acc).2 := by
  intro r
  induction r with
  | zero =>
    intro attempt lastErr acc x hx
    rcases lastErr with _ | ⟨a, c⟩ <;> simpa [retryAux] using hx
  | succ r ih =>
    intro attempt lastErr acc x hx
    cases houtcome : outcome attempt with
    | ok v =>
      rw [retryAux_step_ok outcome reauthOk N attempt r lastErr acc v houtcome]
      exact hx
    | fail isAuth code =>
      cases isAuth with
      | false =>
        cases r with
        | zero =>
          rw [retryAux_final_nonauth outcome reauthOk N attempt lastErr acc
            code houtcome]
          exact hx
        | succ r' =>
          rw [retryAux_step_nonauth outcome reauthOk N attempt r' lastErr acc
            code houtcome]
          exact ih _ _ _ x (List.mem_append_left _ hx)
      | true =>
        cases r with
        | zero =>
          cases hre : reauthOk attempt with
          | false =>
            rw [retryAux_final_auth_noreauth outcome reauthOk N attempt lastErr
              acc code houtcome hre]
            exact List.mem_append_left _ hx
          | true =>
            rw [retryAux_final_auth_reauth outcome reauthOk N attempt lastErr
              acc code houtcome hre]
            exact List.mem_append_left _ hx
        | succ r' =>
          rw [retryAux_step_auth outcome reauthOk N attempt r' lastErr acc
            code houtcome]
          exact ih _ _ _ x (List.mem_append_left _ hx)

theorem retryAux_exhaust (outcome : Nat → AttemptResult) (reauthOk : Nat → Bool)
    (N : Nat) :
    ∀ (r attempt : Nat) (lastErr : Option (Bool × Nat)) (acc : List RetryAction),
      1 ≤ r → attempt + r = N + 1 →
      (∀ i, attempt ≤ i → i ≤ N → ∃ a c, outcome i = .fail a c) →
      (∀ c, outcome N = .fail true c → reauthOk N = false →
        (retryAux outcome reauthOk N attempt r lastErr acc).1 =
          .error (.authFailedAfter N)) ∧
      (∀ c, outcome N = .fail false c →
        (retryAux outcome reauthOk N attempt r lastErr acc).1 =
          .error (.raised false c)) := by
  intro r
  induction r with
  | zero =>
    intro attempt lastErr acc h1
    exact absurd h1 (by omega)
  | succ r ih =>
    intro attempt lastErr acc _ hinv hfail
    cases r with
    | zero =>
      have hA : attempt = N := by omega
      subst hA
      constructor
      · intro c hc hre
        rw [retryAux_final_auth_noreauth outcome reauthOk attempt attempt
          lastErr acc c hc hre]
      · intro c hc
        rw [retryAux_final_nonauth outcome reauthOk attempt attempt lastErr
          acc c hc]
    | succ r' =>
      obtain ⟨a, c0, hac⟩ := hfail attempt (le_refl _) (by omega)
      cases a with
      | false =>
        rw [retryAux_step_nonauth outcome reauthOk N attempt r' lastErr acc
          c0 hac]
        exact ih (attempt + 1) (some (false, c0)) _ (by omega) (by omega)
          fun i hi1 hi2 => hfail i (by omega) hi2
      | true =>
        rw [retryAux_step_auth outcome reauthOk N attempt r' lastErr acc
          c0 hac]
        exact ih (attempt + 1) (some (true, c0)) _ (by omega) (by omega)
          fun i hi1 hi2 => hfail i (by omega) hi2

theorem retryAux_trace (outcome : Nat → AttemptResult) (reauthOk : Nat → Bool)
    (N : Nat) :
    ∀ (r attempt : Nat) (lastErr : Option (Bool × Nat)) (acc : List RetryAction)
      (i c : Nat),
      attempt + r = N + 1 → attempt ≤ i → i < N →
      (∀ j, attempt ≤ j → j ≤ i → ∃ a d, outcome j = .fail a d) →
      (outcome i = .fail true c →
        .reauth i ∈ (retryAux outcome reauthOk N attempt r lastErr acc).2) ∧
      (outcome i = .fail false c →
        .wait (i * 2000) ∈ (retryAux outcome reauthOk N attempt r lastErr acc).2) := by
  intro r
  induction r with
  | zero =>
    intro attempt lastErr acc i c hinv hai hiN _
    exact absurd hinv (by omega)
  | succ r ih =>
    intro attempt lastErr acc i c hinv hai hiN hfail
    by_cases hei : attempt = i
    · subst hei
      obtain ⟨r', rfl⟩ : ∃ r', r = r' + 1 := ⟨r - 1, by omega⟩
      constructor
      · intro hc
        rw [retryAux_step_auth outcome reauthOk N attempt r' lastErr acc c hc]
        exact retryAux_mem_acc outcome reauthOk N _ _ _ _ _ (by simp)
      · intro hc
        rw [retryAux_step_nonauth outcome reauthOk N attempt r' lastErr acc c hc]
        exact retryAux_mem_acc outcome reauthOk N _ _ _ _ _ (by simp)
    · have hlt : attempt < i := lt_of_le_of_ne hai hei
      obtain ⟨a, d, had⟩ := hfail attempt (le_refl _) (by omega)
      obtain ⟨r', rfl⟩ : ∃ r', r = r' + 1 := ⟨r - 1, by omega⟩
      cases a with
      | false =>
        rw [retryAux_step_nonauth outcome reauthOk N attempt r' lastErr acc
          d had]
        exact ih (attempt + 1) _ _ i c (by omega) (by omega) hiN
          fun j hj1 hj2 => hfail j (by omega) hj2
      | true =>
        rw [retryAux_step_auth outcome reauthOk N attempt r' lastErr acc
          d had]
        exact ih (attempt + 1) _ _ i c (by omega) (by omega) hiN
          fun j hj1 hj2 => hfail j (by omega) hj2

/-- C8: when every attempt up to maxRetries fails, scrapePageWithRetry
raises the distinct authentication-exhaustion error exactly when the final
failure is authentication-categorized and its re-authentication did not
succeed, and re-raises the last underlying error unchanged when the final
failure is of any other category; before each non-final retry it performs
re-authentication for an authentication-categorized failure and waits
`attempt * 2000` ms (linear backoff) for any other failure. -/
theorem scrapePageWithRetry_spec (outcome : Nat → AttemptResult)
    (reauthOk : Nat → Bool) (N : Nat) :
    (1 ≤ N → (∀ i, 1 ≤ i → i ≤ N → ∃ a c, outcome i = .fail a c) →
      (∀ c, outcome N = .fail true c → reauthOk N = false →
        (scrapePageWithRetry outcome reauthOk N).1 =
          .error (.authFailedAfter N)) ∧
      (∀ c, outcome N = .fail false c →
        (scrapePageWithRetry outcome reauthOk N).1 =
          .error (.raised false c))) ∧
    (∀ i c, 1 ≤ i → i < N →
      (∀ j, 1 ≤ j → j ≤ i → ∃ a d, outcome j = .fail a d) →
      (outcome i = .fail true c →
        .reauth i ∈ (scrapePageWithRetry outcome reauthOk N).2) ∧
      (outcome i = .fail false c →
        .wait (i * 2000) ∈ (scrapePageWithRetry outcome reauthOk N).2)) := by
  constructor
  · intro hN hfail
    exact retryAux_exhaust outcome reauthOk N N 1 none [] hN (by omega) hfail
  · intro i c h1 hiN hfail
    exact retryAux_trace outcome reauthOk N N 1 none [] i c (by omega) h1
      hiN hfail

/-- C9 counterexample: a successful run that finds an existing game (the
update path) emits the step-3 progress event twice — once for the stage and
once for the found-existing notice — so its progress events are not
strictly ordered by increasing step index. -/
theorem scrapeEvents_not_strictly_ordered :
    lastIsCompleted
      (scrapeEvents
        { scrapeOk := true, extractOk := true, checkThrows := false,
          foundExisting := true, sizesThrow := false, saveOk := true }) = true ∧
    countCompleted
      (scrapeEvents
        { scrapeOk := true, extractOk := true, checkThrows := false,
          foundExisting := true, sizesThrow := false, saveOk := true }) = 1 ∧
    stepsOf
      (scrapeEvents
        { scrapeOk := true, extractOk := true, checkThrows := false,
          foundExisting := true, sizesThrow := false, saveOk := true }) =
      [1, 2, 3, 3, 4, 5, 6] ∧
    strictIncr
      (stepsOf
        (scrapeEvents
          { scrapeOk := true, extractOk := true, checkThrows := false,
            foundExisting := true, sizesThrow := false, saveOk := true })) =
      false := by
  refine ⟨by decide, by decide, by decide, by decide⟩

/-- C9 amended: each stage's progress event is emitted, carrying the stage
index, before that stage's outcome can produce further events; the step
indices of one run are non-decreasing (strictly increasing except for the
repeated step-3 event when an existing game is found); a successful run
ends with exactly one completed event and no error event, and a failing
run ends with exactly one error event, no completed event, and no events
after the error. -/
theorem scrapeEvents_ordered (a b c d e f : Bool) :
    nonDecr (stepsOf (scrapeEvents
      { scrapeOk := a, extractOk := b, checkThrows := c,
        foundExisting := d, sizesThrow := e, saveOk := f })) = true ∧
    ((a && b && f) = true →
      countCompleted (scrapeEvents
        { scrapeOk := a, extractOk := b, checkThrows := c,
          foundExisting := d, sizesThrow := e, saveOk := f }) = 1 ∧
      countError (scrapeEvents
        { scrapeOk := a, extractOk := b, checkThrows := c,
          foundExisting := d, sizesThrow := e, saveOk := f }) = 0 ∧
      lastIsCompleted (scrapeEvents
        { scrapeOk := a, extractOk := b, checkThrows := c,
          foundExisting := d, sizesThrow := e, saveOk := f }) = true) ∧
    ((a && b && f) = false →
      countError (scrapeEvents
        { scrapeOk := a, extractOk := b, checkThrows := c,
          foundExisting := d, sizesThrow := e, saveOk := f }) = 1 ∧
      countCompleted (scrapeEvents
        { scrapeOk := a, extractOk := b, checkThrows := c,
          foundExisting := d, sizesThrow := e, saveOk := f }) = 0 ∧
      lastIsError (scrapeEvents
        { scrapeOk := a, extractOk := b, checkThrows := c,
          foundExisting := d, sizesThrow := e, saveOk := f }) = true) := by
  revert a b c d e f
  decide

end F95
